import Mathlib

/-!
Verification development for the lego-etcd coordination core.

The Go sources are shallowly embedded: the etcd key-value store becomes an
explicit store value threaded through each operation, blocking calls
(watches, lock waits) are modelled over explicit finite event streams, and
the external collaborators that the design treats as opaque (the ACME
certificate-authority client, JSON marshalling, PEM/DER codecs, the RNG)
become function-valued parameters of the embedded operations.
-/

namespace LegoEtcd

/-! ## Store model

An etcd node carries a string value and an optional TTL (seconds).  The
store maps keys to nodes.  `set` models `KeysAPI.Set` with `PrevIgnore`
(unconditional overwrite); conditional writes are modelled at their call
sites (`Service.Lock`, `Service.Unlock`).
-/

/-- An etcd node: a value plus an optional TTL in seconds. -/
structure Node where
  value : String
  ttl : Option Nat := none
deriving DecidableEq

/-- The etcd key-value store, as a map from keys to nodes. -/
def Store : Type := String → Option Node

/-- Read a key (`KeysAPI.Get`); `none` models the etcd KeyNotFound error. -/
def Store.get (st : Store) (k : String) : Option Node := st k

/-- Unconditional write (`KeysAPI.Set` with `PrevIgnore`). -/
def Store.set (st : Store) (k : String) (v : Node) : Store :=
  fun q => if q = k then some v else st q

/-- Delete a key (`KeysAPI.Delete`). -/
def Store.del (st : Store) (k : String) : Store :=
  fun q => if q = k then none else st q

/-- The empty store. -/
def Store.empty : Store := fun _ => none

theorem Store.get_set_self (st : Store) (k : String) (v : Node) :
    (st.set k v).get k = some v := by
  simp [Store.get, Store.set]

theorem Store.get_set_ne (st : Store) (k q : String) (v : Node) (h : q ≠ k) :
    (st.set k v).get q = st.get q := by
  simp [Store.get, Store.set, h]

/-- The Go error values that the embedded operations distinguish. -/
inductive GoError
  | keyNotFound      -- etcd ErrorCodeKeyNotFound (client.IsKeyNotFound)
  | testFailed       -- etcd ErrorCodeTestFailed (conditional delete mismatch)
  | jsonError        -- json.Unmarshal failure
  | parseError       -- x509 parse/marshal failure
  | unknownKeyType   -- legoetcd.ErrUnknowKeyType
  | generatingCert   -- service.ErrGeneratingCert
  | noPemForCSR      -- legoetcd.ErrNoPemForCSR
  | other
deriving DecidableEq

/-- Boolean success test for an `Except` result. -/
def exceptOk {ε α : Type} : Except ε α → Bool
  | .ok _ => true
  | .error _ => false

/-! ## Key layout

The Go sources build every key with `fmt.Sprintf` over these format
strings (cert.go:19-24, account.go:21-24, service.go:16-19); here each
format string becomes a function of the interpolated identity/domain.
-/

/-- cert.go: `certKey = "/lego/certificates/%s.cert"`. -/
def certKey (s : String) : String := "/lego/certificates/" ++ s ++ ".cert"

/-- cert.go: `keyKey = "/lego/certificates/%s.key"`. -/
def keyKey (s : String) : String := "/lego/certificates/" ++ s ++ ".key"

/-- cert.go: `metaKey = "/lego/certificates/%s.json"`. -/
def metaKey (s : String) : String := "/lego/certificates/" ++ s ++ ".json"

/-- cert.go: `pemKey = "/lego/certificates/%s.pem"`. -/
def pemKey (s : String) : String := "/lego/certificates/" ++ s ++ ".pem"

/-- account.go: `registrationKey = "/lego/accounts/%s/registration"`. -/
def registrationKey (s : String) : String := "/lego/accounts/" ++ s ++ "/registration"

/-- account.go: `cryptoKey = "/lego/accounts/%s/key"`. -/
def cryptoKey (s : String) : String := "/lego/accounts/" ++ s ++ "/key"

/-- service.go: `accountLockKey = "/lego/accounts/%s/lock"`. -/
def accountLockKey (s : String) : String := "/lego/accounts/" ++ s ++ "/lock"

/-- service.go: `certLockKey = "/lego/certificates/%s.lock"`. -/
def certLockKey (s : String) : String := "/lego/certificates/" ++ s ++ ".lock"

/-! ## Distributed lock (service lock.go) -/

/-- Outcome of `Service.Lock`: success, or the `ErrLockExists` error that
the code returns when the etcd conditional write fails with
`ErrorCodeNodeExist`. -/
inductive LockOutcome
  | ok
  | lockExists
deriving DecidableEq

/-- The lock TTL: the Go code passes `TTL: 1 * time.Hour` (in seconds here). -/
def lockTTL : Nat := 3600

/-- `Service.Lock`: a create-if-absent write (`PrevExist: PrevNoExist`)
of the holder token at `path` with a one-hour TTL.  If the key already
exists etcd reports `ErrorCodeNodeExist` and the code returns
`ErrLockExists`, leaving the store unchanged. -/
def Service.Lock (st : Store) (path holder : String) : Store × LockOutcome :=
  match st.get path with
  | some _ => (st, .lockExists)
  | none => (st.set path ⟨holder, some lockTTL⟩, .ok)

/-- `Service.Unlock`: delete `path` conditioned on its value equalling the
holder token (`DeleteOptions{PrevValue: ...}`); a mismatch is the etcd
TestFailed error and a missing key is KeyNotFound. -/
def Service.Unlock (st : Store) (path holder : String) : Store × Option GoError :=
  match st.get path with
  | none => (st, some .keyNotFound)
  | some n => if n.value = holder then (st.del path, none) else (st, some .testFailed)

/-- One result delivered by the etcd watcher's `Next`: either a response
with an action string, or an error. -/
inductive WatchResult
  | event (action : String)
  | err (e : GoError)
deriving DecidableEq

/-- `Service.WaitForLockDeletion`, embedded over the finite stream of
results its watcher produces.  The Go loop re-arms the watcher, returns
`nil` on a KeyNotFound error (the key is already gone) or on a `delete`
action, returns any other error, and loops past every other event.
`none` means the stream ended with the call still blocked. -/
def WaitForLockDeletion : List WatchResult → Option (Except GoError Unit)
  | [] => none
  | .err e :: _ => if e = .keyNotFound then some (.ok ()) else some (.error e)
  | .event a :: rest => if a = "delete" then some (.ok ()) else WaitForLockDeletion rest

/-- A watch result that `WaitForLockDeletion` loops past: a genuine event
whose action is not `delete`. -/
def spuriousWatch : WatchResult → Bool
  | .event a => decide (a ≠ "delete")
  | .err _ => false

/-- Runs a sequence of competing `Service.Lock` calls on one path, one per
holder token, collecting each outcome. -/
def acquireSeq (st : Store) (path : String) : List String → Store × List LockOutcome
  | [] => (st, [])
  | h :: t =>
    let r := Service.Lock st path h
    let rest := acquireSeq r.1 path t
    (rest.1, r.2 :: rest.2)

theorem acquireSeq_held (path : String) (hs : List String) (st : Store)
    (h : (st.get path).isSome = true) :
    (acquireSeq st path hs).2 = List.replicate hs.length .lockExists := by
  induction hs generalizing st with
  | nil => simp [acquireSeq]
  | cons a t ih =>
    rcases hn : st.get path with _ | n
    · rw [hn] at h; simp at h
    · simp only [acquireSeq, Service.Lock, hn, List.length_cons, List.replicate]
      exact congrArg (List.cons _) (ih st (by simp [hn]))

/-- C2: `Service.Lock` is a create-if-absent write of the holder token at
the path with the one-hour TTL; it succeeds exactly when the path is
absent and fails with `ErrLockExists` exactly when the key already
exists, so of a sequence of competing acquisitions on one path only the
first succeeds and every later one receives `ErrLockExists`. -/
theorem lock_mutual_exclusion (st : Store) (path holder h : String) (t : List String) :
    ((Service.Lock st path holder).2 = .ok ↔ st.get path = none)
    ∧ (st.get path = none →
        Service.Lock st path holder = (st.set path ⟨holder, some lockTTL⟩, .ok))
    ∧ ((Service.Lock st path holder).2 = .lockExists ↔ (st.get path).isSome = true)
    ∧ ((st.get path).isSome = true → Service.Lock st path holder = (st, .lockExists))
    ∧ ((st.get path).isSome = true →
        (acquireSeq st path (h :: t)).2 = List.replicate (h :: t).length .lockExists)
    ∧ (st.get path = none →
        (acquireSeq st path (h :: t)).2 = .ok :: List.replicate t.length .lockExists) := by
  refine ⟨?_, ?_, ?_, ?_, ?_, ?_⟩
  · constructor
    · intro hr
      rcases hn : st.get path with _ | n
      · rfl
      · simp [Service.Lock, hn] at hr
    · intro hn; simp [Service.Lock, hn]
  · intro hn; simp [Service.Lock, hn]
  · constructor
    · intro hr
      rcases hn : st.get path with _ | n
      · simp [Service.Lock, hn] at hr
      · simp
    · intro hs
      rcases hn : st.get path with _ | n
      · rw [hn] at hs; simp at hs
      · simp [Service.Lock, hn]
  · intro hs
    rcases hn : st.get path with _ | n
    · rw [hn] at hs; simp at hs
    · simp [Service.Lock, hn]
  · exact acquireSeq_held path (h :: t) st
  · intro hn
    simp only [acquireSeq, Service.Lock, hn]
    refine congrArg (List.cons _) (acquireSeq_held path t _ ?_)
    simp [Store.get_set_self]

/-- Closed instance of `lock_mutual_exclusion`: three competing holders on
a free path, the first wins and the others get `ErrLockExists`. -/
theorem lock_mutual_exclusion_witness :
    (acquireSeq Store.empty "/lego/certificates/example.com.lock" ["h1", "h2", "h3"]).2
      = [.ok, .lockExists, .lockExists] := by
  have h := (lock_mutual_exclusion Store.empty "/lego/certificates/example.com.lock"
    "h1" "h1" ["h2", "h3"]).2.2.2.2.2 rfl
  simpa [List.replicate] using h

/-- C7: `WaitForLockDeletion` returns `ok` at once when the very first
watch result is the KeyNotFound error (the path is already absent),
returns `ok` when a `delete` event arrives after any number of spurious
(non-delete) events, and produces an error only when the watch stream
actually delivered an unrecoverable (non-KeyNotFound) store error. -/
theorem waitForLockDeletion_spec (evs pre rest : List WatchResult) (e : GoError) :
    (WaitForLockDeletion (.err .keyNotFound :: evs) = some (.ok ()))
    ∧ (pre.all spuriousWatch = true →
        WaitForLockDeletion (pre ++ .event "delete" :: rest) = some (.ok ()))
    ∧ (WaitForLockDeletion evs = some (.error e) →
        .err e ∈ evs ∧ e ≠ .keyNotFound) := by
  refine ⟨by simp [WaitForLockDeletion], ?_, ?_⟩
  · induction pre with
    | nil => intro _; simp [WaitForLockDeletion]
    | cons x xs ih =>
      intro hall
      rw [List.all_cons, Bool.and_eq_true] at hall
      rcases x with a | e'
      · have ha : a ≠ "delete" := by
          have := hall.1
          simpa [spuriousWatch] using this
        simp only [List.cons_append, WaitForLockDeletion, if_neg ha]
        exact ih hall.2
      · have := hall.1
        simp [spuriousWatch] at this
  · induction evs with
    | nil => intro hres; simp [WaitForLockDeletion] at hres
    | cons x xs ih =>
      intro hres
      rcases x with a | e'
      · by_cases ha : a = "delete"
        · subst ha; simp [WaitForLockDeletion] at hres
        · simp only [WaitForLockDeletion, if_neg ha] at hres
          rcases ih hres with ⟨hm, hne⟩
          exact ⟨List.mem_cons_of_mem _ hm, hne⟩
      · by_cases he : e' = .keyNotFound
        · subst he; simp [WaitForLockDeletion] at hres
        · simp only [WaitForLockDeletion, if_neg he, Option.some.injEq,
            Except.error.injEq] at hres
          subst hres
          exact ⟨List.mem_cons_self _ _, he⟩

/-- Closed instance of `waitForLockDeletion_spec`: a spurious `set` event
is looped past and the following `delete` event unblocks the wait. -/
theorem waitForLockDeletion_witness :
    WaitForLockDeletion [.event "set", .event "delete"] = some (.ok ()) := by
  have h := (waitForLockDeletion_spec [] [.event "set"] [] .other).2.1 (by decide)
  simpa using h

/-! ## Certificate record store (cert.go)

Certificate bytes, key bytes and JSON text are Go byte/string values,
modelled as `String`.  A nil Go byte slice (`PrivateKey == nil`) is
`Option.none`.  JSON marshalling of the metadata struct is an external
codec and becomes the `CertPrimitives` parameter; `unmarshalCert` takes
the struct being unmarshalled into because `json.Unmarshal` merges into
the existing value.
-/

/-- acme.CertificateResource, restricted to the fields the embedded code
reads or writes. -/
structure CertificateResource where
  Domain : String
  Certificate : String
  PrivateKey : Option String
deriving DecidableEq

/-- legoetcd.Cert: requested domains, optional externally-supplied CSR
(abstracted to its raw form), and the certificate material. -/
structure Cert where
  Domains : List String
  CSR : Option String
  CertRes : CertificateResource   -- the Go field is named Cert; renamed to avoid the type name
deriving DecidableEq

/-- External JSON codec for the certificate metadata. -/
structure CertPrimitives where
  unmarshalCert : CertificateResource → String → Option CertificateResource
  marshalCert : CertificateResource → String

/-- `Cert.MetaPath`: the metadata key, formatted with `Domains[0]`.
(Go indexes `c.Domains[0]` and panics on an empty list; the embedding
totalises with the empty string, which no claim exercises.) -/
def Cert.MetaPath (c : Cert) : String := metaKey (c.Domains.headD "")

/-- `Cert.CertPath`: the certificate-bytes key, formatted with `Domains[0]`. -/
def Cert.CertPath (c : Cert) : String := certKey (c.Domains.headD "")

/-- `Cert.KeyPath`: the private-key key, formatted with `Domains[0]`. -/
def Cert.KeyPath (c : Cert) : String := keyKey (c.Domains.headD "")

/-- `Cert.PemPath`: the combined-PEM key, formatted with `Domains[0]`. -/
def Cert.PemPath (c : Cert) : String := pemKey (c.Domains.headD "")

/-- `Cert.PEM`: `bytes.Join([][]byte{Certificate, PrivateKey}, nil)`,
i.e. the certificate bytes concatenated with the private-key bytes
(a nil key contributes nothing). -/
def Cert.PEM (c : Cert) : String := c.CertRes.Certificate ++ c.CertRes.PrivateKey.getD ""

/-- `Cert.loadMeta`: get the metadata key and unmarshal it into the
in-memory metadata; a missing key or a JSON failure aborts. -/
def Cert.loadMeta (P : CertPrimitives) (st : Store) (c : Cert) : Except GoError Cert :=
  match st.get c.MetaPath with
  | none => .error .keyNotFound
  | some n =>
    match P.unmarshalCert c.CertRes n.value with
    | none => .error .jsonError
    | some r => .ok { c with CertRes := r }

/-- `Cert.loadCert`: get the certificate-bytes key into
`Cert.Certificate`. -/
def Cert.loadCert (st : Store) (c : Cert) : Except GoError Cert :=
  match st.get c.CertPath with
  | none => .error .keyNotFound
  | some n => .ok { c with CertRes := { c.CertRes with Certificate := n.value } }

/-- `Cert.loadKey`: get the private-key key into `Cert.PrivateKey`. -/
def Cert.loadKey (st : Store) (c : Cert) : Except GoError Cert :=
  match st.get c.KeyPath with
  | none => .error .keyNotFound
  | some n => .ok { c with CertRes := { c.CertRes with PrivateKey := some n.value } }

/-- `Cert.Reload`: re-run the three loads on an existing record; the
first failure aborts, mirroring Go's early returns.  (Go mutates the
receiver in place; the embedding returns the updated record and discards
partial updates on error, which no claim observes.) -/
def Cert.Reload (P : CertPrimitives) (st : Store) (c : Cert) : Except GoError Cert :=
  match c.loadMeta P st with
  | .error e => .error e
  | .ok c1 =>
    match c1.loadCert st with
    | .error e => .error e
    | .ok c2 => c2.loadKey st

/-- `legoetcd.LoadCert`: build a fresh record for the domains and run the
three loads in sequence; the first failure aborts the whole load. -/
def LoadCert (P : CertPrimitives) (st : Store) (domains : List String) :
    Except GoError Cert :=
  Cert.Reload P st
    { Domains := domains, CSR := none,
      CertRes := { Domain := "", Certificate := "", PrivateKey := none } }

theorem loadMeta_ok_info (P : CertPrimitives) (st : Store) (c c1 : Cert)
    (h : Cert.loadMeta P st c = .ok c1) :
    c1.Domains = c.Domains ∧ (st.get c.MetaPath).isSome = true := by
  unfold Cert.loadMeta at h
  split at h
  · simp at h
  next n hn =>
    split at h
    · simp at h
    next r hr =>
      injection h with h
      subst h
      exact ⟨rfl, by simp [hn]⟩

theorem loadCert_ok_info (st : Store) (c c1 : Cert)
    (h : Cert.loadCert st c = .ok c1) :
    c1.Domains = c.Domains ∧ (st.get c.CertPath).isSome = true := by
  unfold Cert.loadCert at h
  split at h
  · simp at h
  next n hn =>
    injection h with h
    subst h
    exact ⟨rfl, by simp [hn]⟩

theorem loadKey_ok_info (st : Store) (c c1 : Cert)
    (h : Cert.loadKey st c = .ok c1) :
    c1.Domains = c.Domains ∧ (st.get c.KeyPath).isSome = true := by
  unfold Cert.loadKey at h
  split at h
  · simp at h
  next n hn =>
    injection h with h
    subst h
    exact ⟨rfl, by simp [hn]⟩

theorem reload_ok_keys (P : CertPrimitives) (st : Store) (c c' : Cert)
    (h : Cert.Reload P st c = .ok c') :
    (st.get c.MetaPath).isSome = true ∧ (st.get c.CertPath).isSome = true
    ∧ (st.get c.KeyPath).isSome = true := by
  unfold Cert.Reload at h
  split at h
  · simp at h
  next c1 h1 =>
    split at h
    · simp at h
    next c2 h2 =>
      have i1 := loadMeta_ok_info P st c c1 h1
      have i2 := loadCert_ok_info st c1 c2 h2
      have i3 := loadKey_ok_info st c2 c' h
      refine ⟨i1.2, ?_, ?_⟩
      · have : c1.CertPath = c.CertPath := by
          simp [Cert.CertPath, i1.1]
        rw [← this]; exact i2.2
      · have : c2.KeyPath = c.KeyPath := by
          simp [Cert.KeyPath, i2.1, i1.1]
        rw [← this]; exact i3.2

/-- `Cert.saveCert`: unconditional write of the certificate bytes at the
key formatted with the metadata field `c.CertRes.Domain` (not `Domains[0]`).
Returns the written key alongside the new store. -/
def Cert.saveCert (c : Cert) (st : Store) : Store × List String :=
  (st.set (certKey c.CertRes.Domain) ⟨c.CertRes.Certificate, none⟩, [certKey c.CertRes.Domain])

/-- `Cert.saveMeta`: marshal the metadata and write it, keyed by
`c.CertRes.Domain`. -/
def Cert.saveMeta (P : CertPrimitives) (c : Cert) (st : Store) : Store × List String :=
  (st.set (metaKey c.CertRes.Domain) ⟨P.marshalCert c.CertRes, none⟩, [metaKey c.CertRes.Domain])

/-- `Cert.saveKey`: write the private-key bytes, keyed by
`c.CertRes.Domain` (only called with a non-nil key). -/
def Cert.saveKey (c : Cert) (st : Store) : Store × List String :=
  (st.set (keyKey c.CertRes.Domain) ⟨c.CertRes.PrivateKey.getD "", none⟩, [keyKey c.CertRes.Domain])

/-- `Cert.savePem`: write the combined PEM, keyed by `c.CertRes.Domain`. -/
def Cert.savePem (c : Cert) (st : Store) : Store × List String :=
  (st.set (pemKey c.CertRes.Domain) ⟨c.PEM, none⟩, [pemKey c.CertRes.Domain])

/-- `Cert.Save`: write certificate bytes, then metadata; with a private
key present also write the key bytes and, when `pem` is requested, the
combined PEM; without a private key a `pem` request fails with
`ErrNoPemForCSR` (after the first two writes already happened).
Returns the final store, the keys written in order, and the error. -/
def Cert.Save (P : CertPrimitives) (c : Cert) (st : Store) (pem : Bool) :
    Store × List String × Option GoError :=
  let r1 := c.saveCert st
  let r2 := c.saveMeta P r1.1
  match c.CertRes.PrivateKey with
  | some _ =>
    let r3 := c.saveKey r2.1
    if pem then
      let r4 := c.savePem r3.1
      (r4.1, r1.2 ++ r2.2 ++ r3.2 ++ r4.2, none)
    else (r3.1, r1.2 ++ r2.2 ++ r3.2, none)
  | none =>
    if pem then (r2.1, r1.2 ++ r2.2, some .noPemForCSR)
    else (r2.1, r1.2 ++ r2.2, none)

/-- C5: `Save` with combined-PEM output requested fails with
`ErrNoPemForCSR` when the record holds no private key, and with a
private key present it succeeds and the persisted PEM value is the
certificate bytes concatenated with the private-key bytes. -/
theorem save_pem_consistency (P : CertPrimitives) (st : Store) (c : Cert) :
    (c.CertRes.PrivateKey = none →
      (Cert.Save P c st true).2.2 = some .noPemForCSR)
    ∧ (∀ k, c.CertRes.PrivateKey = some k →
        (Cert.Save P c st true).2.2 = none
        ∧ (Cert.Save P c st true).1.get (pemKey c.CertRes.Domain)
            = some ⟨c.CertRes.Certificate ++ k, none⟩) := by
  constructor
  · intro hn
    simp [Cert.Save, hn]
  · intro k hk
    refine ⟨by simp [Cert.Save, hk], ?_⟩
    simp [Cert.Save, hk, Cert.savePem, Cert.PEM, hk, Store.get_set_self]

/-- Closed instance of `save_pem_consistency`: saving a domain-issued
record persists `cert-bytes ++ key-bytes` at the PEM key. -/
theorem save_pem_consistency_witness :
    (Cert.Save ⟨fun r _ => some r, fun _ => "JSON"⟩
        ⟨["example.com"], none, ⟨"example.com", "CERT", some "KEY"⟩⟩ Store.empty true).1.get
      (pemKey "example.com") = some ⟨"CERTKEY", none⟩ :=
  ((save_pem_consistency ⟨fun r _ => some r, fun _ => "JSON"⟩ Store.empty
    ⟨["example.com"], none, ⟨"example.com", "CERT", some "KEY"⟩⟩).2 "KEY" rfl).2

/-- C6: loading a certificate record reads the metadata, certificate and
private-key keys under the primary domain `Domains[0]`; if any of the
three keys is missing the whole load fails, for `LoadCert` and `Reload`
alike, and a successful load implies all three keys were present. -/
theorem loadCert_complete_record (P : CertPrimitives) (st : Store) (ds : List String)
    (c : Cert) (hc : c.Domains = ds) :
    ((st.get (metaKey (ds.headD "")) = none ∨ st.get (certKey (ds.headD "")) = none
        ∨ st.get (keyKey (ds.headD "")) = none) →
      exceptOk (LoadCert P st ds) = false ∧ exceptOk (Cert.Reload P st c) = false)
    ∧ (exceptOk (LoadCert P st ds) = true →
        (st.get (metaKey (ds.headD ""))).isSome = true
        ∧ (st.get (certKey (ds.headD ""))).isSome = true
        ∧ (st.get (keyKey (ds.headD ""))).isSome = true)
    ∧ (exceptOk (Cert.Reload P st c) = true →
        (st.get (metaKey (ds.headD ""))).isSome = true
        ∧ (st.get (certKey (ds.headD ""))).isSome = true
        ∧ (st.get (keyKey (ds.headD ""))).isSome = true) := by
  subst hc
  have main : ∀ c0 : Cert, c0.Domains = c.Domains →
      ((st.get (metaKey (c.Domains.headD "")) = none
          ∨ st.get (certKey (c.Domains.headD "")) = none
          ∨ st.get (keyKey (c.Domains.headD "")) = none) →
        exceptOk (Cert.Reload P st c0) = false)
      ∧ (exceptOk (Cert.Reload P st c0) = true →
          (st.get (metaKey (c.Domains.headD ""))).isSome = true
          ∧ (st.get (certKey (c.Domains.headD ""))).isSome = true
          ∧ (st.get (keyKey (c.Domains.headD ""))).isSome = true) := by
    intro c0 hd
    have hkeys : ∀ c1, Cert.Reload P st c0 = .ok c1 →
        (st.get (metaKey (c.Domains.headD ""))).isSome = true
        ∧ (st.get (certKey (c.Domains.headD ""))).isSome = true
        ∧ (st.get (keyKey (c.Domains.headD ""))).isSome = true := by
      intro c1 h
      have h3 := reload_ok_keys P st c0 c1 h
      simpa [Cert.MetaPath, Cert.CertPath, Cert.KeyPath, hd] using h3
    constructor
    · intro hmiss
      rcases hr : Cert.Reload P st c0 with e | c1
      · simp [exceptOk]
      · exfalso
        have h3 := hkeys c1 hr
        rcases hmiss with hm | hm | hm <;> rw [hm] at h3 <;> simp at h3
    · intro hok
      rcases hr : Cert.Reload P st c0 with e | c1
      · rw [hr] at hok; simp [exceptOk] at hok
      · exact hkeys c1 hr
  have hload : LoadCert P st c.Domains
      = Cert.Reload P st
          { Domains := c.Domains, CSR := none,
            CertRes := { Domain := "", Certificate := "", PrivateKey := none } } := rfl
  refine ⟨?_, ?_, (main c rfl).2⟩
  · intro hmiss
    constructor
    · rw [hload]
      exact (main
        { Domains := c.Domains, CSR := none,
          CertRes := { Domain := "", Certificate := "", PrivateKey := none } } rfl).1 hmiss
    · exact (main c rfl).1 hmiss
  · intro hok
    rw [hload] at hok
    exact (main
      { Domains := c.Domains, CSR := none,
        CertRes := { Domain := "", Certificate := "", PrivateKey := none } } rfl).2 hok

/-- Closed instance of `loadCert_complete_record`: with the
certificate-bytes key absent the load fails. -/
theorem loadCert_complete_record_witness :
    exceptOk (LoadCert ⟨fun r _ => some r, fun _ => "JSON"⟩ Store.empty ["example.com"])
      = false :=
  ((loadCert_complete_record ⟨fun r _ => some r, fun _ => "JSON"⟩ Store.empty
      ["example.com"] ⟨["example.com"], none, ⟨"", "", none⟩⟩ rfl).1 (Or.inl rfl)).1

/-! ## Save/load key addressing (claim C8)

The load paths (`MetaPath` .. `PemPath`) are formatted with `Domains[0]`,
but every save function formats its key with the metadata field
`c.Cert.Domain` instead; the two agree only when that field equals the
first requested domain.
-/

theorem strData_append (a b : String) : (a ++ b).data = a.data ++ b.data := by
  cases a; cases b; rfl

theorem append_suffix_ne (p d s t : String) (h : s.data ≠ t.data) :
    p ++ d ++ s ≠ p ++ d ++ t := by
  intro he
  apply h
  have h2 : (p ++ d).data ++ s.data = (p ++ d).data ++ t.data := by
    rw [← strData_append, ← strData_append, he]
  exact List.append_cancel_left h2

theorem certKey_ne_metaKey (d : String) : certKey d ≠ metaKey d :=
  append_suffix_ne _ _ _ _ (by decide)

theorem certKey_ne_keyKey (d : String) : certKey d ≠ keyKey d :=
  append_suffix_ne _ _ _ _ (by decide)

theorem certKey_ne_pemKey (d : String) : certKey d ≠ pemKey d :=
  append_suffix_ne _ _ _ _ (by decide)

theorem metaKey_ne_keyKey (d : String) : metaKey d ≠ keyKey d :=
  append_suffix_ne _ _ _ _ (by decide)

theorem metaKey_ne_pemKey (d : String) : metaKey d ≠ pemKey d :=
  append_suffix_ne _ _ _ _ (by decide)

theorem keyKey_ne_pemKey (d : String) : keyKey d ≠ pemKey d :=
  append_suffix_ne _ _ _ _ (by decide)

/-- A record whose metadata domain field disagrees with the head of its
domain list; `Save` keys off the former, the load paths off the latter. -/
def mismatchCert : Cert :=
  { Domains := ["a.example"], CSR := none,
    CertRes := { Domain := "b.example", Certificate := "CERT", PrivateKey := some "KEY" } }

/-- C8 counterexample: saving `mismatchCert` into an empty store writes
nothing at the record's own `CertPath` (which uses `Domains[0] =
"a.example"`) — the bytes land under the metadata domain `"b.example"`
instead — and a subsequent `LoadCert` over the same domain list fails,
so Save and Load do not address identical keys for every record. -/
theorem save_load_key_mismatch :
    (Cert.Save ⟨fun r _ => some r, fun _ => "JSON"⟩ mismatchCert Store.empty true).1.get
        mismatchCert.CertPath = none
    ∧ (Cert.Save ⟨fun r _ => some r, fun _ => "JSON"⟩ mismatchCert Store.empty true).1.get
        (certKey "b.example") = some ⟨"CERT", none⟩
    ∧ exceptOk (LoadCert ⟨fun r _ => some r, fun _ => "JSON"⟩
        (Cert.Save ⟨fun r _ => some r, fun _ => "JSON"⟩ mismatchCert Store.empty true).1
        mismatchCert.Domains) = false := by
  refine ⟨?_, ?_, ?_⟩ <;> decide

/-- C8 (amended): every save key is derived from the metadata domain
field `c.Cert.Domain`, while every load key is derived from
`Domains[0]`; when the metadata domain equals the first entry of the
domain list — the normal situation for a domain-issued certificate — a
`Save` writes exactly the four keys that the load paths address, with
the saved material retrievable at those paths. -/
theorem save_load_keys_amended (P : CertPrimitives) (st : Store) (c : Cert) (k : String)
    (hd : c.CertRes.Domain = c.Domains.headD "") (hk : c.CertRes.PrivateKey = some k) :
    (Cert.Save P c st true).2.1
      = [certKey c.CertRes.Domain, metaKey c.CertRes.Domain,
         keyKey c.CertRes.Domain, pemKey c.CertRes.Domain]
    ∧ (Cert.Save P c st true).1.get c.CertPath = some ⟨c.CertRes.Certificate, none⟩
    ∧ (Cert.Save P c st true).1.get c.MetaPath = some ⟨P.marshalCert c.CertRes, none⟩
    ∧ (Cert.Save P c st true).1.get c.KeyPath = some ⟨k, none⟩
    ∧ (Cert.Save P c st true).1.get c.PemPath = some ⟨c.CertRes.Certificate ++ k, none⟩ := by
  have hcp : c.CertPath = certKey c.CertRes.Domain := by rw [Cert.CertPath, hd]
  have hmp : c.MetaPath = metaKey c.CertRes.Domain := by rw [Cert.MetaPath, hd]
  have hkp : c.KeyPath = keyKey c.CertRes.Domain := by rw [Cert.KeyPath, hd]
  have hpp : c.PemPath = pemKey c.CertRes.Domain := by rw [Cert.PemPath, hd]
  have hsave : (Cert.Save P c st true).1
      = (((st.set (certKey c.CertRes.Domain) ⟨c.CertRes.Certificate, none⟩).set
            (metaKey c.CertRes.Domain) ⟨P.marshalCert c.CertRes, none⟩).set
            (keyKey c.CertRes.Domain) ⟨k, none⟩).set
            (pemKey c.CertRes.Domain) ⟨c.CertRes.Certificate ++ k, none⟩ := by
    simp [Cert.Save, hk, Cert.saveCert, Cert.saveMeta, Cert.saveKey, Cert.savePem, Cert.PEM]
  refine ⟨?_, ?_, ?_, ?_, ?_⟩
  · simp [Cert.Save, hk, Cert.saveCert, Cert.saveMeta, Cert.saveKey, Cert.savePem]
  · rw [hcp, hsave,
      Store.get_set_ne _ _ _ _ (certKey_ne_pemKey c.CertRes.Domain),
      Store.get_set_ne _ _ _ _ (certKey_ne_keyKey c.CertRes.Domain),
      Store.get_set_ne _ _ _ _ (certKey_ne_metaKey c.CertRes.Domain),
      Store.get_set_self]
  · rw [hmp, hsave,
      Store.get_set_ne _ _ _ _ (metaKey_ne_pemKey c.CertRes.Domain),
      Store.get_set_ne _ _ _ _ (metaKey_ne_keyKey c.CertRes.Domain),
      Store.get_set_self]
  · rw [hkp, hsave,
      Store.get_set_ne _ _ _ _ (keyKey_ne_pemKey c.CertRes.Domain),
      Store.get_set_self]
  · rw [hpp, hsave, Store.get_set_self]

/-- Closed instance of `save_load_keys_amended`: with matching domains the
saved certificate bytes are found at the record's own `CertPath`. -/
theorem save_load_keys_amended_witness :
    (Cert.Save ⟨fun r _ => some r, fun _ => "JSON"⟩
        ⟨["example.com"], none, ⟨"example.com", "CERT", some "KEY"⟩⟩ Store.empty true).1.get
      (Cert.CertPath ⟨["example.com"], none, ⟨"example.com", "CERT", some "KEY"⟩⟩)
      = some ⟨"CERT", none⟩ :=
  (save_load_keys_amended ⟨fun r _ => some r, fun _ => "JSON"⟩ Store.empty
    ⟨["example.com"], none, ⟨"example.com", "CERT", some "KEY"⟩⟩ "KEY" rfl rfl).2.1

/-! ## Account record store (account.go)

PEM/DER codecs, JSON (un)marshalling of the registration, and the RNG
behind `ecdsa.GenerateKey` are external cryptographic primitives (spec
scope) and become the `AccountPrimitives` parameter.  Key material is
abstracted to its raw encoded form; an EC key carries the curve that its
construction site fixes, mirroring `ecdsa.GenerateKey(c, ...)` returning
a key on curve `c`.
-/

/-- An elliptic curve identifier. -/
inductive Curve
  | P256
  | P384
  | P521
deriving DecidableEq

/-- Abstract RSA private key (raw DER form). -/
structure RSAPrivateKey where
  raw : String
deriving DecidableEq

/-- Abstract ECDSA private key: its curve and raw form. -/
structure ECPrivateKey where
  curve : Curve
  raw : String
deriving DecidableEq

/-- The `crypto.PrivateKey` an account may hold. -/
inductive AccountPrivateKey
  | rsa (k : RSAPrivateKey)
  | ec (k : ECPrivateKey)
deriving DecidableEq

/-- acme.RegistrationResource, abstracted to the agreement field the
code consults. -/
structure RegistrationResource where
  agreement : String
deriving DecidableEq

/-- A decoded PEM block: its type line and payload. -/
structure PemBlock where
  type : String
  bytes : String
deriving DecidableEq

/-- External crypto/JSON primitives consumed by the account store. -/
structure AccountPrimitives where
  unmarshalReg : String → Option RegistrationResource
  marshalReg : RegistrationResource → String
  pemDecode : String → Option PemBlock
  parseRSA : String → Option RSAPrivateKey   -- x509.ParsePKCS1PrivateKey
  parseEC : String → Option ECPrivateKey     -- x509.ParseECPrivateKey
  marshalECKey : ECPrivateKey → Option String -- x509.MarshalECPrivateKey
  pemEncode : PemBlock → String
  genECP384 : String                          -- raw material the RNG yields

/-- legoetcd.Account: owning email, optional registration, optional key. -/
structure Account where
  email : String
  registration : Option RegistrationResource
  key : Option AccountPrivateKey
deriving DecidableEq

/-- `legoetcd.NewAccount`: a fresh account for the email. -/
def NewAccount (email : String) : Account :=
  { email := email, registration := none, key := none }

/-- Result of `Account.LoadKey`.  The Go code runs `pem.Decode` and then
dereferences the returned block without a nil check, so a value holding
no PEM block at all makes it panic rather than return an error. -/
inductive LoadKeyResult
  | ok (a : Account)
  | err (e : GoError)
  | panicNilBlock
deriving DecidableEq

/-- `Account.LoadKey`: get the key from etcd, PEM-decode it, and parse by
block type — PKCS1 for `RSA PRIVATE KEY`, EC for `EC PRIVATE KEY`; any
other block type is the distinct `ErrUnknowKeyType`, while a parse
failure of a known type surfaces the x509 error itself. -/
def Account.LoadKey (P : AccountPrimitives) (st : Store) (a : Account) : LoadKeyResult :=
  match st.get (cryptoKey a.email) with
  | none => .err .keyNotFound
  | some n =>
    match P.pemDecode n.value with
    | none => .panicNilBlock
    | some blk =>
      if blk.type = "RSA PRIVATE KEY" then
        match P.parseRSA blk.bytes with
        | none => .err .parseError
        | some k => .ok { a with key := some (.rsa k) }
      else if blk.type = "EC PRIVATE KEY" then
        match P.parseEC blk.bytes with
        | none => .err .parseError
        | some k => .ok { a with key := some (.ec k) }
      else .err .unknownKeyType

/-- `Account.LoadRegistration`: get and unmarshal the registration. -/
def Account.LoadRegistration (P : AccountPrimitives) (st : Store) (a : Account) :
    Except GoError Account :=
  match st.get (registrationKey a.email) with
  | none => .error .keyNotFound
  | some n =>
    match P.unmarshalReg n.value with
    | none => .error .jsonError
    | some r => .ok { a with registration := some r }

/-- Result of `Account.Load` (registration, then key; first failure
aborts). -/
inductive AccountLoadResult
  | ok (a : Account)
  | err (e : GoError)
  | panicNilBlock
deriving DecidableEq

/-- `Account.Load`: `LoadRegistration` then `LoadKey`, early-returning
the first failure. -/
def Account.Load (P : AccountPrimitives) (st : Store) (a : Account) : AccountLoadResult :=
  match a.LoadRegistration P st with
  | .error e => .err e
  | .ok a1 =>
    match a1.LoadKey P st with
    | .ok a2 => .ok a2
    | .err e => .err e
    | .panicNilBlock => .panicNilBlock

/-- `Account.GenerateKey`: `ecdsa.GenerateKey(elliptic.P384(), rand.Reader)`
stored into the account — always an ECDSA key on curve P-384, built from
whatever material the RNG yields.  (The RNG error path is not modelled;
no claim exercises it.) -/
def Account.GenerateKey (P : AccountPrimitives) (a : Account) : Account :=
  { a with key := some (.ec { curve := .P384, raw := P.genECP384 }) }

/-- Result of `Account.Save`: the Go code type-asserts the stored key to
`*ecdsa.PrivateKey`, which panics on an RSA key. -/
inductive AccSaveResult
  | ok (st : Store) (w : List String)
  | err (e : GoError) (st : Store) (w : List String)
  | panicTypeAssert

/-- `Account.Save`: write the registration if present, then the key if
present (EC-marshal, PEM-encode, write); writes are sequential and
non-transactional. -/
def Account.Save (P : AccountPrimitives) (a : Account) (st : Store) : AccSaveResult :=
  let r1 : Store × List String :=
    match a.registration with
    | some r => (st.set (registrationKey a.email) ⟨P.marshalReg r, none⟩,
                 [registrationKey a.email])
    | none => (st, [])
  match a.key with
  | none => .ok r1.1 r1.2
  | some (.rsa _) => .panicTypeAssert
  | some (.ec k) =>
    match P.marshalECKey k with
    | none => .err .parseError r1.1 r1.2
    | some der =>
      .ok (r1.1.set (cryptoKey a.email) ⟨P.pemEncode ⟨"EC PRIVATE KEY", der⟩, none⟩)
        (r1.2 ++ [cryptoKey a.email])

/-- C9 counterexample: a persisted value that PEM-decodes to an
`RSA PRIVATE KEY` block whose bytes do not parse as an RSA key is
malformed, yet `LoadKey` surfaces the generic x509 parse error, not the
distinct `ErrUnknowKeyType` — refuting the claim for this input. -/
theorem loadKey_malformed_generic_error :
    Account.LoadKey
        ⟨fun _ => some ⟨"ok"⟩, fun _ => "", fun _ => some ⟨"RSA PRIVATE KEY", "garbage"⟩,
         fun _ => none, fun _ => none, fun _ => some "", fun _ => "", "mat"⟩
        (Store.empty.set (cryptoKey "me@example.com") ⟨"bad-der-rsa", none⟩)
        (NewAccount "me@example.com")
      = .err .parseError
    ∧ Account.LoadKey
        ⟨fun _ => some ⟨"ok"⟩, fun _ => "", fun _ => some ⟨"RSA PRIVATE KEY", "garbage"⟩,
         fun _ => none, fun _ => none, fun _ => some "", fun _ => "", "mat"⟩
        (Store.empty.set (cryptoKey "me@example.com") ⟨"bad-der-rsa", none⟩)
        (NewAccount "me@example.com")
      ≠ .err .unknownKeyType := by
  refine ⟨?_, ?_⟩ <;> decide

/-- C9 (amended): when the persisted value PEM-decodes to a block whose
type is neither `RSA PRIVATE KEY` nor `EC PRIVATE KEY`, `LoadKey` fails
with the distinct `ErrUnknowKeyType`; a known-type block with
unparseable bytes surfaces the generic x509 parse error instead, and a
value with no PEM block at all crashes on the nil block. -/
theorem loadKey_unknown_type (P : AccountPrimitives) (st : Store) (a : Account)
    (n : Node) (blk : PemBlock)
    (h1 : st.get (cryptoKey a.email) = some n)
    (h2 : P.pemDecode n.value = some blk)
    (h3 : blk.type ≠ "RSA PRIVATE KEY")
    (h4 : blk.type ≠ "EC PRIVATE KEY") :
    Account.LoadKey P st a = .err .unknownKeyType := by
  unfold Account.LoadKey
  rw [h1]
  simp [h2, h3, h4]

/-- Closed instance of `loadKey_unknown_type`: a `FOO PRIVATE KEY` block
yields `ErrUnknowKeyType`. -/
theorem loadKey_unknown_type_witness :
    Account.LoadKey
        ⟨fun _ => some ⟨"ok"⟩, fun _ => "", fun _ => some ⟨"FOO PRIVATE KEY", "x"⟩,
         fun _ => none, fun _ => none, fun _ => some "", fun _ => "", "mat"⟩
        (Store.empty.set (cryptoKey "me@example.com") ⟨"foo-pem", none⟩)
        (NewAccount "me@example.com")
      = .err .unknownKeyType :=
  loadKey_unknown_type
    ⟨fun _ => some ⟨"ok"⟩, fun _ => "", fun _ => some ⟨"FOO PRIVATE KEY", "x"⟩,
     fun _ => none, fun _ => none, fun _ => some "", fun _ => "", "mat"⟩
    (Store.empty.set (cryptoKey "me@example.com") ⟨"foo-pem", none⟩)
    (NewAccount "me@example.com") ⟨"foo-pem", none⟩ ⟨"FOO PRIVATE KEY", "x"⟩
    (by decide) rfl (by decide) (by decide)

/-! ## Lifecycle service (service.go, cert.go NewCert)

The ACME client is the external CA collaborator and becomes the
`ACMEClient` parameter (per-domain failures are the association list its
obtain operations return).  The blocking `WaitForLockDeletion` calls are
run over the watch streams carried by `WaitEnv`.  `lockContents()`
(host + pid) is the `holder` field of the configuration.
-/

/-- The key algorithm/size selection (acme.KeyType). -/
inductive KeyType
  | rsa2048
  | rsa4096
  | rsa8192
  | ec256
  | ec384
deriving DecidableEq

/-- The service configuration fields the embedded code consults. -/
structure ServiceCfg where
  keyType : KeyType
  noBundle : Bool
  domains : List String
  email : String
  csrFile : String
  generatePEM : Bool
  holder : String      -- lockContents(): "host-pid"

/-- The external ACME CA client capability. -/
structure ACMEClient where
  obtainCertificate : List String → Bool → CertificateResource × List (String × GoError)
  obtainCertificateForCSR : String → Bool → CertificateResource × List (String × GoError)
  renewCertificate : CertificateResource → Bool → Except GoError CertificateResource
  readCSRFile : String → Except GoError String

/-- The watch streams consumed by the blocking lock waits. -/
structure WaitEnv where
  accountWatch : List WatchResult
  certWatch : List WatchResult

/-- One observable step taken by a bootstrap routine or a renewal tick. -/
inductive Action
  | acquireLock (path : String)
  | waitForLock (path : String)
  | releaseLock (path : String)
  | write (key : String)
  | renew
deriving DecidableEq

/-- `Client.NewCert`: with a non-empty domain list, obtain a certificate
for the domains; otherwise read the CSR file (a read failure becomes the
failure map `{csr: err}`) and obtain for the CSR.  If the per-domain
failure map is non-empty the whole request fails: no certificate is
returned, only the failure map. -/
def Client.NewCert (ac : ACMEClient) (domains : List String) (csrFile : String)
    (bundle : Bool) : Except (List (String × GoError)) Cert :=
  if 0 < domains.length then
    let r := ac.obtainCertificate domains bundle
    if 0 < r.2.length then .error r.2
    else .ok { Domains := domains, CSR := none, CertRes := r.1 }
  else
    match ac.readCSRFile csrFile with
    | .error e => .error [("csr", e)]
    | .ok csr =>
      let r := ac.obtainCertificateForCSR csr bundle
      if 0 < r.2.length then .error r.2
      else .ok { Domains := domains, CSR := some csr, CertRes := r.1 }

/-- Result of `createAccountIfNecessary`. -/
inductive BootAccountResult
  | ok
  | err (e : GoError)
  | panicked
  | blocked
deriving DecidableEq

/-- `Service.createAccountIfNecessary` (service.go): load the account and
short-circuit on success; on a KeyNotFound error run the bootstrap state
machine — try the account lock, create+save under it (releasing the lock
on return via `defer`), or wait for the lock holder — and finally check
the key loads; any other load error is returned as-is. -/
def Service.createAccountIfNecessary (P : AccountPrimitives) (env : WaitEnv)
    (cfg : ServiceCfg) (st : Store) : Store × List Action × BootAccountResult :=
  let acc := NewAccount cfg.email
  match acc.Load P st with
  | .ok _ => (st, [], .ok)
  | .panicNilBlock => (st, [], .panicked)
  | .err e =>
    if e = .keyNotFound then
      let lockPath := accountLockKey cfg.email
      match Service.Lock st lockPath cfg.holder with
      | (st1, .lockExists) =>
        match WaitForLockDeletion env.accountWatch with
        | none => (st1, [.acquireLock lockPath, .waitForLock lockPath], .blocked)
        | some (.error e1) =>
          (st1, [.acquireLock lockPath, .waitForLock lockPath], .err e1)
        | some (.ok _) =>
          match acc.LoadKey P st1 with
          | .ok _ => (st1, [.acquireLock lockPath, .waitForLock lockPath], .ok)
          | .err e1 => (st1, [.acquireLock lockPath, .waitForLock lockPath], .err e1)
          | .panicNilBlock =>
            (st1, [.acquireLock lockPath, .waitForLock lockPath], .panicked)
      | (st1, .ok) =>
        -- defer s.Unlock: runs when the function returns, after the final
        -- LoadKey check below.
        let acc1 := acc.GenerateKey P
        match acc1.Save P st1 with
        | .panicTypeAssert => (st1, [.acquireLock lockPath], .panicked)
        | .err e1 st2 w =>
          let u := Service.Unlock st2 lockPath cfg.holder
          (u.1, .acquireLock lockPath :: (w.map .write ++ [.releaseLock lockPath]), .err e1)
        | .ok st2 w =>
          match acc1.LoadKey P st2 with
          | .ok _ =>
            let u := Service.Unlock st2 lockPath cfg.holder
            (u.1, .acquireLock lockPath :: (w.map .write ++ [.releaseLock lockPath]), .ok)
          | .err e1 =>
            let u := Service.Unlock st2 lockPath cfg.holder
            (u.1, .acquireLock lockPath :: (w.map .write ++ [.releaseLock lockPath]),
             .err e1)
          | .panicNilBlock =>
            let u := Service.Unlock st2 lockPath cfg.holder
            (u.1, .acquireLock lockPath :: (w.map .write ++ [.releaseLock lockPath]),
             .panicked)
    else (st, [], .err e)

/-- Result of `generateCertificateIfNecessary`.  `panicNilCert` marks the
paths where the Go code falls through to `cert.Reload` with the outer
`cert` still nil: `cert, failures := acmeClient.NewCert(...)` inside the
else block shadows the outer variable, and the wait branch never assigns
it, so both fall-throughs dereference a nil pointer. -/
inductive BootCertResult
  | ok (c : Cert)
  | err (e : GoError)
  | panicNilCert
  | blocked
deriving DecidableEq

/-- `Service.generateCertificateIfNecessary` (service.go): load the
certificate and short-circuit on success; otherwise try the certificate
lock and either create+save a new certificate under it (releasing via
`defer`) or wait for the holder.  A non-empty failure map from `NewCert`
logs each failed domain and returns `ErrGeneratingCert` with no save. -/
def Service.generateCertificateIfNecessary (P : CertPrimitives) (ac : ACMEClient)
    (env : WaitEnv) (cfg : ServiceCfg) (st : Store) :
    Store × List Action × BootCertResult :=
  match LoadCert P st cfg.domains with
  | .ok cert => (st, [], .ok cert)
  | .error _ =>
    let lockPath := certLockKey (cfg.domains.headD "")
    match Service.Lock st lockPath cfg.holder with
    | (st1, .lockExists) =>
      match WaitForLockDeletion env.certWatch with
      | none => (st1, [.acquireLock lockPath, .waitForLock lockPath], .blocked)
      | some (.error e) =>
        (st1, [.acquireLock lockPath, .waitForLock lockPath], .err e)
      | some (.ok _) =>
        (st1, [.acquireLock lockPath, .waitForLock lockPath], .panicNilCert)
    | (st1, .ok) =>
      match Client.NewCert ac cfg.domains cfg.csrFile cfg.noBundle with
      | .error _ =>
        let u := Service.Unlock st1 lockPath cfg.holder
        (u.1, [.acquireLock lockPath, .releaseLock lockPath], .err .generatingCert)
      | .ok newCert =>
        let s := Cert.Save P newCert st1 cfg.generatePEM
        match s.2.2 with
        | some e =>
          let u := Service.Unlock s.1 lockPath cfg.holder
          (u.1, .acquireLock lockPath :: (s.2.1.map .write ++ [.releaseLock lockPath]),
           .err e)
        | none =>
          let u := Service.Unlock s.1 lockPath cfg.holder
          (u.1, .acquireLock lockPath :: (s.2.1.map .write ++ [.releaseLock lockPath]),
           .panicNilCert)

/-- service.go: `minimumDurationForRenewal = 45 * 24 * time.Hour`, as a
`time.Duration` in nanoseconds. -/
def minimumDurationForRenewal : Int := 45 * 24 * 60 * 60 * 1000000000

/-- One tick of the renewal loop in `Service.Run` (service.go:146-176).
The expiry reading (`cert.ExpiresIn()`, which consults the parsed leaf
certificate and the wall clock) is passed in.  A reading error skips the
tick.  The code then renews only when `exp > minimumDurationForRenewal`:
it takes the certificate lock (waiting for the holder when it exists;
the lock is never released here and is left to its TTL), renews through
the CA client and saves.  Otherwise the tick does nothing. -/
def Service.renewalTick (ac : ACMEClient) (P : CertPrimitives) (_env : WaitEnv)
    (cfg : ServiceCfg) (expiresIn : Except GoError Int) (cert : Cert) (st : Store) :
    Store × Cert × List Action :=
  match expiresIn with
  | .error _ => (st, cert, [])
  | .ok exp =>
    if exp > minimumDurationForRenewal then
      let lockPath := certLockKey (cfg.domains.headD "")
      match Service.Lock st lockPath cfg.holder with
      | (st1, .lockExists) =>
        -- wait for the holder; success or failure, the tick then ends
        (st1, cert, [.acquireLock lockPath, .waitForLock lockPath])
      | (st1, .ok) =>
        match ac.renewCertificate cert.CertRes cfg.noBundle with
        | .error _ => (st1, cert, [.acquireLock lockPath, .renew])
        | .ok newRes =>
          let cert1 : Cert := { cert with CertRes := newRes }
          let s := Cert.Save P cert1 st1 cfg.generatePEM
          (s.1, cert1, .acquireLock lockPath :: .renew :: s.2.1.map .write)
    else (st, cert, [])

/-! ## Sample instances for closed evaluations -/

/-- A trivial metadata codec for concrete runs. -/
def sampleCertPrims : CertPrimitives := ⟨fun r _ => some r, fun _ => "JSON"⟩

/-- Concrete account primitives whose stored key decodes to an EC block. -/
def sampleAccountPrims : AccountPrimitives :=
  ⟨fun _ => some ⟨"agreed"⟩, fun _ => "REGJSON",
   fun _ => some ⟨"EC PRIVATE KEY", "der"⟩,
   fun _ => none, fun _ => some ⟨.P256, "k"⟩, fun _ => some "ecder",
   fun _ => "pem", "mat"⟩

/-- A CA client that always succeeds. -/
def sampleACME : ACMEClient :=
  ⟨fun _ _ => (⟨"example.com", "NEWCERT", some "NEWKEY"⟩, []),
   fun _ _ => (⟨"example.com", "NEWCERT", some "NEWKEY"⟩, []),
   fun r _ => .ok r, fun _ => .error .other⟩

/-- A CA client that fails for the domain `b.example`. -/
def failingACME : ACMEClient :=
  ⟨fun _ _ => (⟨"", "", none⟩, [("b.example", .other)]),
   fun _ _ => (⟨"", "", none⟩, [("b.example", .other)]),
   fun _ _ => .error .other, fun _ => .error .other⟩

/-- Empty watch streams (no wait ever completes). -/
def sampleEnv : WaitEnv := ⟨[], []⟩

/-- A service configuration for one domain. -/
def sampleCfg : ServiceCfg :=
  ⟨.rsa2048, false, ["example.com"], "me@example.com", "", true, "host-1"⟩

/-- A configuration requesting two domains. -/
def cfgTwoDomains : ServiceCfg :=
  ⟨.rsa2048, false, ["a.example", "b.example"], "me@example.com", "", true, "host-1"⟩

/-- A store already holding the account and certificate records that
`sampleCfg` addresses. -/
def richStore : Store :=
  ((((Store.empty.set (registrationKey "me@example.com") ⟨"REG", none⟩).set
      (cryptoKey "me@example.com") ⟨"ECPEM", none⟩).set
      (metaKey "example.com") ⟨"META", none⟩).set
      (certKey "example.com") ⟨"CERT", none⟩).set
      (keyKey "example.com") ⟨"KEY", none⟩

/-- A loaded certificate record whose metadata domain matches its list. -/
def sampleCert : Cert :=
  ⟨["example.com"], none, ⟨"example.com", "CERT", some "KEY"⟩⟩

/-- C10: `GenerateKey` always stores a freshly generated ECDSA key on
curve P-384 into the account, and the service's configured key-type
selection has no influence on the account-bootstrap path at all: the
bootstrap result is identical for any two key types. -/
theorem generateKey_always_p384 (P : AccountPrimitives) (a : Account) (env : WaitEnv)
    (cfg : ServiceCfg) (st : Store) (kt1 kt2 : KeyType) :
    (Account.GenerateKey P a).key = some (.ec { curve := .P384, raw := P.genECP384 })
    ∧ Service.createAccountIfNecessary P env { cfg with keyType := kt1 } st
      = Service.createAccountIfNecessary P env { cfg with keyType := kt2 } st := by
  refine ⟨rfl, ?_⟩
  cases cfg
  rfl

/-- C3: when the account load succeeds, `createAccountIfNecessary`
returns at once with the store untouched and no lock or write action;
when the certificate load succeeds, `generateCertificateIfNecessary`
returns the loaded certificate likewise without acquiring the lock or
writing anything — a second bootstrap run performs zero extra writes. -/
theorem bootstrap_idempotent (Pa : AccountPrimitives) (P : CertPrimitives)
    (ac : ACMEClient) (env : WaitEnv) (cfg : ServiceCfg) (st : Store) :
    (∀ a, (NewAccount cfg.email).Load Pa st = .ok a →
      Service.createAccountIfNecessary Pa env cfg st = (st, [], .ok))
    ∧ (∀ c, LoadCert P st cfg.domains = .ok c →
      Service.generateCertificateIfNecessary P ac env cfg st = (st, ([], .ok c))) := by
  constructor
  · intro a h
    simp [Service.createAccountIfNecessary, h]
  · intro c h
    simp [Service.generateCertificateIfNecessary, h]

/-- Closed instance of `bootstrap_idempotent`: on a store already holding
both records, both bootstrap routines are read-only no-ops. -/
theorem bootstrap_idempotent_witness :
    Service.createAccountIfNecessary sampleAccountPrims sampleEnv sampleCfg richStore
      = (richStore, [], .ok)
    ∧ Service.generateCertificateIfNecessary sampleCertPrims sampleACME sampleEnv
        sampleCfg richStore
      = (richStore, ([], .ok ⟨["example.com"], none, ⟨"", "CERT", some "KEY"⟩⟩)) :=
  ⟨(bootstrap_idempotent sampleAccountPrims sampleCertPrims sampleACME sampleEnv
      sampleCfg richStore).1 _ rfl,
   (bootstrap_idempotent sampleAccountPrims sampleCertPrims sampleACME sampleEnv
      sampleCfg richStore).2 _ rfl⟩

/-- C4: a non-empty per-domain failure map from the CA client makes
`NewCert` return no certificate, only the failure map; on the bootstrap
path this yields `ErrGeneratingCert` with no `Save` performed — no write
action appears in the run's trace. -/
theorem all_or_nothing_issuance (P : CertPrimitives) (ac : ACMEClient) (env : WaitEnv)
    (cfg : ServiceCfg) (st : Store) :
    (∀ res fs, cfg.domains ≠ [] →
      ac.obtainCertificate cfg.domains cfg.noBundle = (res, fs) → fs ≠ [] →
      Client.NewCert ac cfg.domains cfg.csrFile cfg.noBundle = .error fs)
    ∧ (∀ e fs, LoadCert P st cfg.domains = .error e →
      st.get (certLockKey (cfg.domains.headD "")) = none →
      Client.NewCert ac cfg.domains cfg.csrFile cfg.noBundle = .error fs →
      (Service.generateCertificateIfNecessary P ac env cfg st).2.2
          = .err .generatingCert
      ∧ ∀ k, Action.write k ∉ (Service.generateCertificateIfNecessary P ac env cfg st).2.1) := by
  constructor
  · intro res fs hne hobt hfs
    have hlen : 0 < cfg.domains.length := List.length_pos.mpr hne
    have hlen2 : 0 < fs.length := List.length_pos.mpr hfs
    simp [Client.NewCert, hlen, hobt, hlen2]
  · intro e fs hload hlock hnew
    have hL : Service.Lock st (certLockKey (cfg.domains.headD "")) cfg.holder
        = (st.set (certLockKey (cfg.domains.headD "")) ⟨cfg.holder, some lockTTL⟩, .ok) := by
      unfold Service.Lock
      rw [hlock]
    have hmain : (Service.generateCertificateIfNecessary P ac env cfg st).2
        = ([.acquireLock (certLockKey (cfg.domains.headD "")),
            .releaseLock (certLockKey (cfg.domains.headD ""))],
           .err .generatingCert) := by
      simp only [Service.generateCertificateIfNecessary, hload, hL, hnew]
    constructor
    · show ((Service.generateCertificateIfNecessary P ac env cfg st).2).2 = _
      rw [hmain]
    · intro k
      show Action.write k ∉ ((Service.generateCertificateIfNecessary P ac env cfg st).2).1
      rw [hmain]
      simp

/-- Closed instance of `all_or_nothing_issuance`: the CA failing for
`b.example` leaves the bootstrap with `ErrGeneratingCert`. -/
theorem all_or_nothing_issuance_witness :
    (Service.generateCertificateIfNecessary sampleCertPrims failingACME sampleEnv
        cfgTwoDomains Store.empty).2.2 = .err .generatingCert :=
  ((all_or_nothing_issuance sampleCertPrims failingACME sampleEnv cfgTwoDomains
      Store.empty).2 .keyNotFound [("b.example", .other)] rfl rfl rfl).1

/-- C1: the renewal tick's threshold comparison is inverted with respect
to the claim.  With remaining validity of 10 days — strictly below the
45-day threshold — the tick performs no lock acquisition, no renewal and
no store write, and with remaining validity of 60 days — strictly above
the threshold — it acquires the lock, renews and rewrites all four
certificate keys: the code renews when `exp > minimumDurationForRenewal`
where the claim (and the code's own comments) require renewal below it. -/
theorem renewalTick_threshold_inverted :
    Service.renewalTick sampleACME sampleCertPrims sampleEnv sampleCfg
        (.ok (10 * 24 * 60 * 60 * 1000000000)) sampleCert Store.empty
      = (Store.empty, sampleCert, [])
    ∧ (Service.renewalTick sampleACME sampleCertPrims sampleEnv sampleCfg
        (.ok (60 * 24 * 60 * 60 * 1000000000)) sampleCert Store.empty).2.2
      = [.acquireLock (certLockKey "example.com"), .renew,
         .write (certKey "example.com"), .write (metaKey "example.com"),
         .write (keyKey "example.com"), .write (pemKey "example.com")] := by
  constructor
  · rfl
  · decide

end LegoEtcd
